import Mathlib

/-!
Verification of the pyedb configuration-aggregation subsystem.

Shallow embedding of:
  * `pyedb/configuration/cfg_data.py` — `CfgData.__init__`;
  * `pyedb/dotnet/edb_core/definition/component_def.py` — `EDBComponentDef`;
  * the frequency-sweep call of `examples/legacy_pyaedt_integration/15_ac_analysis.py`.

Python values are embedded as `PyVal`; keyword-argument mappings as
association lists; fallible Python evaluation as `Except PyErr`.
Sub-configuration classes (`CfgNets`, `CfgGeneral`, ...) and the apply
machinery are absent from the sources at hand and are modelled from the
spec where needed; each such definition carries a doc comment saying so.
-/

/-- Embedding of the Python values that flow through the configuration
layer: `None`, booleans, integers, strings, lists and string-keyed dicts. -/
inductive PyVal where
  | pynone : PyVal
  | pybool : Bool → PyVal
  | pyint : Int → PyVal
  | pystr : String → PyVal
  | pylist : List PyVal → PyVal
  | pydict : List (String × PyVal) → PyVal

/-- Python truthiness: `None`, `False`, `0`, `""`, `[]` and the empty dict
are falsy; everything else is truthy. -/
def PyVal.truthy : PyVal → Bool
  | .pynone => false
  | .pybool b => b
  | .pyint n => n != 0
  | .pystr s => !s.isEmpty
  | .pylist xs => !xs.isEmpty
  | .pydict kvs => !kvs.isEmpty

/-- A Python `**kwargs` mapping: string keys to Python values. -/
abbrev Kwargs := List (String × PyVal)

/-- `kwargs.get(k, dflt)`: the value bound to `k`, or `dflt` when the key
is absent. -/
def dgetD (kw : Kwargs) (k : String) (dflt : PyVal) : PyVal :=
  match kw.find? (fun kv => kv.1 == k) with
  | some kv => kv.2
  | Option.none => dflt

/-- `k in kwargs`. -/
def hasKey (kw : Kwargs) (k : String) : Bool :=
  kw.any (fun kv => kv.1 == k)

/-- Python exceptions that the embedded fragment can raise. -/
inductive PyErr where
  | typeError : String → PyErr
  | attributeError : String → PyErr
  deriving DecidableEq, Repr

/-- Iterating a Python value: lists yield their elements, strings their
characters, dicts their keys; `None`, booleans and integers raise
`TypeError`. -/
def pyIter : PyVal → Except PyErr (List PyVal)
  | .pylist xs => .ok xs
  | .pystr s => .ok (s.data.map (fun ch => .pystr (String.mk [ch])))
  | .pydict kvs => .ok (kvs.map (fun kv => .pystr kv.1))
  | .pynone => .error (.typeError "NoneType object is not iterable")
  | .pybool _ => .error (.typeError "bool object is not iterable")
  | .pyint _ => .error (.typeError "int object is not iterable")

/-- `f(self, **v)` argument expansion: `v` must be a mapping. -/
def pyKwExpand : PyVal → Except PyErr Kwargs
  | .pydict kvs => .ok kvs
  | _ => .error (.typeError "argument after ** must be a mapping")

/-- Keyword-expansion of each element of a list, left to right, as a
Python list comprehension over `**`-expanded entries evaluates. -/
def expandAll : List PyVal → Except PyErr (List Kwargs)
  | [] => .ok []
  | x :: xs => do
    let kv ← pyKwExpand x
    let rest ← expandAll xs
    pure (kv :: rest)

/-- `v.get(k, dflt)` on a Python value: only dicts expose `.get`. -/
def PyVal.dictGet (v : PyVal) (k : String) (dflt : PyVal) : Except PyErr PyVal :=
  match v with
  | .pydict kvs => .ok (dgetD kvs k dflt)
  | _ => .error (.attributeError "object has no attribute get")



/-! ## Category configuration objects

The sub-configuration classes live in `pyedb/configuration/cfg_*.py`
modules that are not among the sources at hand; `cfg_data.py` only calls
their constructors. Each is modelled from the spec as an object storing
its slice of the input mapping ("each category stores its slice of
configuration"); per the spec, their constructors never touch the live
design and do not fail on missing optional keys. -/

/-- Modelled from the spec: `CfgGeneral` (cfg_general.py is missing) —
global scalar settings; stores its slice of the mapping. -/
structure CfgGeneral where
  data : PyVal

/-- Modelled from the spec: `CfgGeneral.spice_model_library` (read by
`CfgData.__init__` line 60) — a library-path setting held by the general
category. -/
def CfgGeneral.spice_model_library (g : CfgGeneral) : PyVal :=
  match g.data with
  | .pydict kvs => dgetD kvs "spice_model_library" .pynone
  | _ => .pynone

/-- Modelled from the spec: `CfgBoundaries` (cfg_boundaries.py is
missing); stores its slice of the mapping. -/
structure CfgBoundaries where
  data : PyVal

/-- Modelled from the spec: `CfgNets` (cfg_nets.py is missing) —
signal/power net classification lists; `CfgNets(self)` defaults both
lists to empty. -/
structure CfgNets where
  signal_nets : PyVal
  power_ground_nets : PyVal

/-- Modelled from the spec: `CfgComponent` (cfg_components.py is
missing); stores the keyword-expanded component entry. -/
structure CfgComponent where
  data : Kwargs

/-- Modelled from the spec: `CfgPadstacks` (cfg_padstacks.py is
missing); stores its slice of the mapping (`None` when absent). -/
structure CfgPadstacks where
  data : PyVal

/-- Modelled from the spec: `CfgPinGroup` (cfg_pin_groups.py is
missing); stores one pin-group entry. -/
structure CfgPinGroup where
  data : PyVal

/-- Modelled from the spec: `CfgPort` (cfg_ports_sources.py is missing);
stores the keyword-expanded port entry. -/
structure CfgPort where
  data : Kwargs

/-- Modelled from the spec: `CfgSources` (cfg_ports_sources.py is
missing); stores the keyword-expanded source entry. -/
structure CfgSources where
  data : Kwargs

/-- Modelled from the spec: `CfgSetup` (cfg_setup.py is missing); stores
one setup entry; `CfgSetup(self)` stores the default `None` slice. -/
structure CfgSetup where
  data : PyVal

/-- Modelled from the spec: `CfgSpiceModel` (cfg_spice_models.py is
missing); stores the general category's SPICE library path and one
spice-model entry. -/
structure CfgSpiceModel where
  library : PyVal
  data : PyVal

/-- The `boundaries` attribute of `CfgData`: line 41 initialises it to
the plain dict `{}` and line 43 replaces it with a `CfgBoundaries`
object only under a truthiness guard, so the attribute genuinely ranges
over the two shapes. -/
inductive BoundariesAttr where
  | emptyDict : BoundariesAttr
  | cfg : CfgBoundaries → BoundariesAttr

/-- An access performed on the live design handle. -/
inductive DesignAccess where
  | readAccess : String → DesignAccess
  | mutateAccess : String → DesignAccess
  deriving DecidableEq, Repr

/-- Whether a design access is a mutation. -/
def DesignAccess.isMutate : DesignAccess → Bool
  | .readAccess _ => false
  | .mutateAccess _ => true

/-- The live design handle (`pedb`) as seen by `CfgData.__init__`: the
only member the constructor dereferences is `pedb.components.components`
(line 39), embedded as a stored value. -/
structure Pedb where
  componentsComponents : PyVal

/-- Embedding of the `CfgData` object state after `__init__`
(cfg_data.py lines 37–64).  The Python object also stores `self.pedb`
and hands `self` to every category constructor; in the embedding the
categories store only their configuration slice (the parent reference is
used only at apply time), so the handle itself is not a field. -/
structure CfgData where
  edb_comps : PyVal
  general : CfgGeneral
  boundaries : BoundariesAttr
  nets : CfgNets
  components : List CfgComponent
  padstacks : CfgPadstacks
  pin_groups : List CfgPinGroup
  ports : List CfgPort
  sources : List CfgSources
  setups : List CfgSetup
  stackup : PyVal
  s_parameters : PyVal
  spice_models : List CfgSpiceModel
  package_definition : PyVal
  operations : PyVal

/-! ## `CfgData.__init__` (cfg_data.py lines 37–64)

The constructor is split into one parse function per attribute, each the
direct image of its assignment statement; `cfgDataInit` sequences them in
source order.  Fallible steps (iteration, `**` expansion, `.get` on the
`nets` value) live in `Except PyErr`.  The function additionally reports
the list of accesses the constructor performs on the live design handle:
line 39 `self.edb_comps = self.pedb.components.components` is the sole
such access (the modelled category constructors perform none, per the
spec). -/

/-- Line 40: `self.general = CfgGeneral(self, kwargs.get("general", None))`. -/
def parseGeneral (kw : Kwargs) : CfgGeneral :=
  ⟨dgetD kw "general" .pynone⟩

/-- Lines 41–43: `self.boundaries = {}` then, when
`kwargs.get("boundaries", None)` is truthy,
`self.boundaries = CfgBoundaries(self, kwargs.get("boundaries", None))`. -/
def parseBoundaries (kw : Kwargs) : BoundariesAttr :=
  if (dgetD kw "boundaries" .pynone).truthy then
    BoundariesAttr.cfg ⟨dgetD kw "boundaries" .pynone⟩
  else
    BoundariesAttr.emptyDict

/-- Lines 44–48: `self.nets = CfgNets(self)` then, when
`kwargs.get("nets")` is truthy,
`self.nets = CfgNets(self, kwargs.get("nets", {}).get("signal_nets", []),
kwargs.get("nets", {}).get("power_ground_nets", []))`. -/
def parseNets (kw : Kwargs) : Except PyErr CfgNets :=
  if (dgetD kw "nets" .pynone).truthy then do
    let sig ← (dgetD kw "nets" (.pydict [])).dictGet "signal_nets" (.pylist [])
    let pwr ← (dgetD kw "nets" (.pydict [])).dictGet "power_ground_nets" (.pylist [])
    pure ⟨sig, pwr⟩
  else
    pure ⟨.pylist [], .pylist []⟩

/-- Line 49: `self.components = [CfgComponent(self, **component) for
component in kwargs.get("components", [])]`. -/
def parseComponents (kw : Kwargs) : Except PyErr (List CfgComponent) := do
  let items ← pyIter (dgetD kw "components" (.pylist []))
  let expanded ← expandAll items
  pure (expanded.map CfgComponent.mk)

/-- Line 50: `self.padstacks = CfgPadstacks(self, kwargs.get("padstacks", None))`. -/
def parsePadstacks (kw : Kwargs) : CfgPadstacks :=
  ⟨dgetD kw "padstacks" .pynone⟩

/-- Line 51: `self.pin_groups = [CfgPinGroup(self, pin_group) for
pin_group in kwargs.get("pin_groups", [])]`. -/
def parsePinGroups (kw : Kwargs) : Except PyErr (List CfgPinGroup) := do
  let items ← pyIter (dgetD kw "pin_groups" (.pylist []))
  pure (items.map CfgPinGroup.mk)

/-- Line 52: `self.ports = [CfgPort(self, **port) for port in
kwargs.get("ports", [])]`. -/
def parsePorts (kw : Kwargs) : Except PyErr (List CfgPort) := do
  let items ← pyIter (dgetD kw "ports" (.pylist []))
  let expanded ← expandAll items
  pure (expanded.map CfgPort.mk)

/-- Line 53: `self.sources = [CfgSources(self, **source) for source in
kwargs.get("sources", [])]`. -/
def parseSources (kw : Kwargs) : Except PyErr (List CfgSources) := do
  let items ← pyIter (dgetD kw "sources" (.pylist []))
  let expanded ← expandAll items
  pure (expanded.map CfgSources.mk)

/-- Lines 54–56: `self.setups = [CfgSetup(self)]` then, when
`kwargs.get("setups", None)` is truthy, `self.setups = [CfgSetup(self,
setup) for setup in kwargs.get("setups", [])]`. -/
def parseSetups (kw : Kwargs) : Except PyErr (List CfgSetup) :=
  if (dgetD kw "setups" .pynone).truthy then do
    let items ← pyIter (dgetD kw "setups" (.pylist []))
    pure (items.map CfgSetup.mk)
  else
    pure [⟨.pynone⟩]

/-- Lines 59–62: `self.spice_models = [CfgSpiceModel(self,
self.general.spice_model_library, spice_model) for spice_model in
kwargs.get("spice_models", [])]`. -/
def parseSpiceModels (kw : Kwargs) (lib : PyVal) : Except PyErr (List CfgSpiceModel) := do
  let items ← pyIter (dgetD kw "spice_models" (.pylist []))
  pure (items.map (fun s => ⟨lib, s⟩))

/-- `CfgData.__init__(self, pedb, **kwargs)` (cfg_data.py lines 37–64):
the accesses made to the live design handle, paired with the object
state the constructor produces (or the exception it raises).  The
access on line 39 (`self.pedb.components.components`) happens first,
before any category is built, so it is performed even when a later
assignment raises; the assignments run in source order. -/
def cfgDataInit (pedb : Pedb) (kw : Kwargs) :
    List DesignAccess × Except PyErr CfgData :=
  ([DesignAccess.readAccess "components.components"],
   do
    let general := parseGeneral kw
    let boundaries := parseBoundaries kw
    let nets ← parseNets kw
    let components ← parseComponents kw
    let padstacks := parsePadstacks kw
    let pin_groups ← parsePinGroups kw
    let ports ← parsePorts kw
    let sources ← parseSources kw
    let setups ← parseSetups kw
    let spice_models ← parseSpiceModels kw general.spice_model_library
    pure
      { edb_comps := pedb.componentsComponents
        general := general
        boundaries := boundaries
        nets := nets
        components := components
        padstacks := padstacks
        pin_groups := pin_groups
        ports := ports
        sources := sources
        setups := setups
        stackup := .pynone
        s_parameters := .pynone
        spice_models := spice_models
        package_definition := .pynone
        operations := .pynone })

/-- The design accesses performed by `CfgData.__init__` on a given
input. -/
def constructionTrace (pedb : Pedb) (kw : Kwargs) : List DesignAccess :=
  (cfgDataInit pedb kw).1

/-- A design handle with an empty components collection, used as a
concrete construction input. -/
def pedb0 : Pedb := ⟨.pylist []⟩

/-! ## Well-formed inputs

Shape conditions under which `CfgData.__init__` completes without
raising: a truthy `nets` value must be a dict (line 46 calls `.get` on
it); `components`, `ports` and `sources` values must be lists of dicts
(lines 49, 52, 53 iterate and `**`-expand them); `pin_groups`,
`spice_models` and a truthy `setups` value must be lists (lines 51, 56,
61 iterate them). -/

/-- Whether a value is a Python dict. -/
def isDictB : PyVal → Bool
  | .pydict _ => true
  | _ => false

/-- Whether a value is a Python list. -/
def isListB : PyVal → Bool
  | .pylist _ => true
  | _ => false

/-- Whether a value is a Python list whose elements are all dicts. -/
def isListOfDictsB : PyVal → Bool
  | .pylist xs => xs.all isDictB
  | _ => false

/-- Shape conditions on an input mapping sufficient for
`CfgData.__init__` to complete (the spec's "well-formed inputs"). -/
def wellFormedB (kw : Kwargs) : Bool :=
  (!(dgetD kw "nets" .pynone).truthy || isDictB (dgetD kw "nets" .pynone)) &&
  isListOfDictsB (dgetD kw "components" (.pylist [])) &&
  isListB (dgetD kw "pin_groups" (.pylist [])) &&
  isListOfDictsB (dgetD kw "ports" (.pylist [])) &&
  isListOfDictsB (dgetD kw "sources" (.pylist [])) &&
  (!(dgetD kw "setups" .pynone).truthy || isListB (dgetD kw "setups" .pynone)) &&
  isListB (dgetD kw "spice_models" (.pylist []))

/-- A well-formed input mapping. -/
def WellFormed (kw : Kwargs) : Prop := wellFormedB kw = true

/-! ## Apply sequencing

`cfg_data.py` defines no `apply`; the spec states that the configuration
root "exposes `apply()` which invokes each category's apply in
dependency order: general → nets → padstacks → components → pin groups →
ports → sources → setups → spice models → boundaries", that "any
category apply failure aborts remaining categories and reports which
category and which entry failed", and that each category's apply mutates
the external design handle.  The sequencer below is modelled from those
spec sentences; the category apply bodies (also not among the sources)
are abstracted as a fallible step function. -/

/-- The ten configuration categories. -/
inductive Category where
  | general : Category
  | nets : Category
  | padstacks : Category
  | components : Category
  | pinGroups : Category
  | ports : Category
  | sources : Category
  | setups : Category
  | spiceModels : Category
  | boundaries : Category
  deriving DecidableEq, Repr

/-- The dependency order in which the categories are applied. -/
def applyOrder : List Category :=
  [.general, .nets, .padstacks, .components, .pinGroups, .ports,
   .sources, .setups, .spiceModels, .boundaries]

/-- Classification of a net in the live design. -/
inductive NetClass where
  | signal : NetClass
  | power : NetClass
  | unclassified : NetClass
  deriving DecidableEq, Repr

/-- The mutable state of the external design handle that the modelled
applies act on: the classification of each net by name. -/
structure DesignState where
  netClass : String → NetClass

/-- `setNetClass n c`: classify net `n` as `c`, leaving every other net
unchanged. -/
def DesignState.setNetClass (d : DesignState) (n : String) (c : NetClass) : DesignState :=
  ⟨Function.update d.netClass n c⟩

/-- A mutation performed on the external design handle, recorded as a
description string. -/
abbrev Mutation := String

/-- A category apply failing at one entry, identified by the entry's
design identifier. -/
structure EntryFailure where
  entry : String
  deriving DecidableEq, Repr

/-- A failed apply pass: the failing category together with the failing
entry identifier, as surfaced to the caller. -/
structure ApplyFailure where
  category : Category
  entry : String
  deriving DecidableEq, Repr

/-- One category's apply: given the configuration root and the current
design state, it either fails at some entry or returns the mutated
state with the list of mutations performed.  The category apply bodies
are not among the sources, so the step is a parameter. -/
abbrev CategoryStep :=
  Category → CfgData → DesignState → Except EntryFailure (DesignState × List Mutation)

/-- Modelled from the spec: the sequencing core of `CfgData.apply`.
Runs the given categories in order; on the first failure it stops,
wrapping the entry failure with the failing category; otherwise it
threads the design state and concatenates the mutations.  Also returns
the list of categories actually invoked, in invocation order. -/
def applySeq (step : CategoryStep) (cfg : CfgData) :
    List Category → DesignState →
    List Category × Except ApplyFailure (DesignState × List Mutation)
  | [], d => ([], .ok (d, []))
  | c :: rest, d =>
    match step c cfg d with
    | .error f => ([c], .error ⟨c, f.entry⟩)
    | .ok (d1, ms) =>
      match applySeq step cfg rest d1 with
      | (tr, .error e) => (c :: tr, .error e)
      | (tr, .ok (d2, ms2)) => (c :: tr, .ok (d2, ms ++ ms2))

/-- Modelled from the spec: `CfgData.apply` — "exposes `apply()` which
invokes each category's apply in dependency order", aborting on the
first failure (`cfg_data.py` itself contains only the constructor). -/
def CfgData.apply (cfg : CfgData) (step : CategoryStep) (d : DesignState) :
    List Category × Except ApplyFailure (DesignState × List Mutation) :=
  applySeq step cfg applyOrder d

/-- Whether an `Except` computation succeeded. -/
def exOk : Except ApplyFailure (DesignState × List Mutation) → Bool
  | .ok _ => true
  | .error _ => false

/-- Whether a category step succeeded. -/
def stepOk : Except EntryFailure (DesignState × List Mutation) → Bool
  | .ok _ => true
  | .error _ => false

/-! ## Nets classification apply -/

/-- The net names held in a configuration list value. -/
def pyStrings : PyVal → List String
  | .pylist xs => xs.filterMap (fun v =>
      match v with
      | .pystr s => some s
      | _ => Option.none)
  | _ => []

/-- Modelled from the spec: `CfgNets.apply` (cfg_nets.py is missing) —
"apply classifies {signal_nets} as signal and
{power_ground_nets} as power; a net not listed remains
unclassified": each listed signal net is classified as signal, then each
listed power/ground net as power; no other net is touched. -/
def CfgNets.apply (cfg : CfgNets) (d : DesignState) : DesignState :=
  let d1 := (pyStrings cfg.signal_nets).foldl
    (fun st n => st.setNetClass n .signal) d
  (pyStrings cfg.power_ground_nets).foldl
    (fun st n => st.setNetClass n .power) d1

/-- The input mapping of the spec's nets example:
`signal_nets: ["N1"], power_ground_nets: ["GND"]`. -/
def netsKw : Kwargs :=
  [("nets", .pydict
    [("signal_nets", .pylist [.pystr "N1"]),
     ("power_ground_nets", .pylist [.pystr "GND"])])]

/-- The `CfgNets` object that `CfgData.__init__` builds from `netsKw`. -/
def netsCfgExample : CfgNets :=
  ⟨.pylist [.pystr "N1"], .pylist [.pystr "GND"]⟩

/-! ## `EDBComponentDef` (component_def.py)

The definition object manages the components sharing one part name.  In
the source, `components` is a property that queries the layout and
builds a dict keyed by reference designator; the embedding stores the
component list directly and rebuilds the dict the way the Python dict
comprehension `{comp.refdes: comp for comp in comp_list}` does
(first occurrence keeps its position, a later duplicate key overwrites
the value).  Methods mutate component objects; the embedding passes the
updated definition state instead. -/

/-- The electrical model assigned to a component: fixed RLC,
S-parameter, or SPICE. -/
inductive CompModel where
  | rlc : PyVal → PyVal → PyVal → Bool → CompModel
  | sparam : PyVal → PyVal → PyVal → CompModel
  | spice : PyVal → PyVal → CompModel

/-- A component instance in the layout: reference designator, component
type string, and its currently assigned electrical model, if any.  The
single-slot `model` field is modelled from the spec: a component has
"exactly one electrical model" and assignments are "mutually exclusive
per component; if more than one is specified, the last applied wins"
(the `EDBComponent` class itself is not among the sources). -/
structure EDBComponent where
  refdes : String
  type : String
  model : Option CompModel

/-- Modelled from the spec: `EDBComponent.assign_rlc_model` — assigns a
fixed RLC model, replacing any previously assigned model. -/
def EDBComponent.assign_rlc_model (c : EDBComponent)
    (res ind cap : PyVal) (is_parallel : Bool) : EDBComponent :=
  { c with model := some (.rlc res ind cap is_parallel) }

/-- Modelled from the spec: `EDBComponent.assign_s_param_model` —
assigns an S-parameter model, replacing any previously assigned model. -/
def EDBComponent.assign_s_param_model (c : EDBComponent)
    (file_path model_name reference_net : PyVal) : EDBComponent :=
  { c with model := some (.sparam file_path model_name reference_net) }

/-- Modelled from the spec: `EDBComponent.assign_spice_model` — assigns
a SPICE model, replacing any previously assigned model. -/
def EDBComponent.assign_spice_model (c : EDBComponent)
    (file_path model_name : PyVal) : EDBComponent :=
  { c with model := some (.spice file_path model_name) }

/-- An EDB component definition: the components in the layout that carry
this definition's part name (the source recovers them through
`FindByComponentDef`). -/
structure EDBComponentDef where
  comps : List EDBComponent

/-- Python dict insertion: an existing key keeps its position and takes
the new value; a new key is appended. -/
def dictInsert (m : List (String × EDBComponent)) (k : String)
    (v : EDBComponent) : List (String × EDBComponent) :=
  if m.any (fun kv => kv.1 == k) then
    m.map (fun kv => if kv.1 == k then (k, v) else kv)
  else
    m ++ [(k, v)]

/-- The `components` property (component_def.py lines 57–72): the dict
`{comp.refdes: comp for comp in comp_list}` keyed by reference
designator. -/
def EDBComponentDef.componentsDict (d : EDBComponentDef) :
    List (String × EDBComponent) :=
  d.comps.foldl (fun m c => dictInsert m c.refdes c) []

/-- The `type` property getter (component_def.py lines 36–50):
`num = len(set(comp.type for refdes, comp in self.components.items()))`;
`None` when `num == 0`, the first dict value's type when `num == 1`,
`"mixed"` otherwise. -/
def EDBComponentDef.type (d : EDBComponentDef) : Option String :=
  let vals := d.componentsDict.map Prod.snd
  let num := (vals.map EDBComponent.type).dedup.length
  if num = 0 then Option.none
  else if num = 1 then vals.head?.map EDBComponent.type
  else some "mixed"

/-- The `type` property setter (component_def.py lines 52–55): sets
`comp.type = value` on each component of the definition.  The Python
loop runs over the refdes-keyed dict's values; when reference
designators are distinct (as in a layout) those are exactly the
definition's components, which is how the embedding states it. -/
def EDBComponentDef.setType (d : EDBComponentDef) (value : String) :
    EDBComponentDef :=
  ⟨d.comps.map (fun c => { c with type := value })⟩

/-- `assign_rlc_model` (component_def.py lines 74–92): assigns the RLC
model to every component under this part name. -/
def EDBComponentDef.assign_rlc_model (d : EDBComponentDef)
    (res ind cap : PyVal) (is_parallel : Bool) : EDBComponentDef :=
  ⟨d.comps.map (fun c => c.assign_rlc_model res ind cap is_parallel)⟩

/-- `assign_s_param_model` (component_def.py lines 94–111): assigns the
S-parameter model to every component under this part name. -/
def EDBComponentDef.assign_s_param_model (d : EDBComponentDef)
    (file_path model_name reference_net : PyVal) : EDBComponentDef :=
  ⟨d.comps.map (fun c => c.assign_s_param_model file_path model_name reference_net)⟩

/-- `assign_spice_model` (component_def.py lines 113–130): assigns the
SPICE model to every component under this part name. -/
def EDBComponentDef.assign_spice_model (d : EDBComponentDef)
    (file_path model_name : PyVal) : EDBComponentDef :=
  ⟨d.comps.map (fun c => c.assign_spice_model file_path model_name)⟩

/-! ## Frequency sweep forwarding (15_ac_analysis.py lines 140–147) -/

/-- A call made on the external design engine. -/
inductive ExternalCall where
  | createSweep : PyVal → ExternalCall

/-- Modelled from the spec: `add_frequency_sweep` — "apply passes
exactly these four fields unmodified to the external sweep-creation
call" (the setup class implementing it is not among the sources): each
sweep entry is handed, unmodified and in order, to the external
sweep-creation call. -/
def add_frequency_sweep (frequency_sweep : List PyVal) : List ExternalCall :=
  frequency_sweep.map ExternalCall.createSweep

/-- The frequency sweep list passed in 15_ac_analysis.py lines 141–147. -/
def exampleFrequencySweep : List PyVal :=
  [.pylist [.pystr "linear count", .pystr "0", .pystr "1kHz", .pyint 1],
   .pylist [.pystr "log scale", .pystr "1kHz", .pystr "0.1GHz", .pyint 10],
   .pylist [.pystr "linear scale", .pystr "0.1GHz", .pystr "10GHz", .pystr "0.1GHz"]]

/-- The first sweep entry of the example: `["linear count", "0", "1kHz", 1]`. -/
def sweepEntry0 : PyVal :=
  .pylist [.pystr "linear count", .pystr "0", .pystr "1kHz", .pyint 1]

/-! ## Concrete instances used as evaluation inputs -/

/-- A design state in which every net is unclassified. -/
def designState0 : DesignState := ⟨fun _ => NetClass.unclassified⟩

/-- The configuration object built from the empty input mapping. -/
def cfgData0 : CfgData :=
  { edb_comps := .pylist []
    general := ⟨.pynone⟩
    boundaries := .emptyDict
    nets := ⟨.pylist [], .pylist []⟩
    components := []
    padstacks := ⟨.pynone⟩
    pin_groups := []
    ports := []
    sources := []
    setups := [⟨.pynone⟩]
    stackup := .pynone
    s_parameters := .pynone
    spice_models := []
    package_definition := .pynone
    operations := .pynone }

/-- A category step that always succeeds and performs no mutation. -/
def stepAllOk : CategoryStep := fun _ _ d => .ok (d, [])

/-- A category step whose nets apply fails at entry "N1" and that
succeeds elsewhere. -/
def stepFailNets : CategoryStep := fun c _ d =>
  match c with
  | .nets => .error ⟨"N1"⟩
  | _ => .ok (d, [])

/-- A component definition holding a single component U1. -/
def compDef0 : EDBComponentDef := ⟨[⟨"U1", "IC", Option.none⟩]⟩

/-- A component definition holding components U1 (type IC) and U2
(type Resistor). -/
def compDefMixed : EDBComponentDef :=
  ⟨[⟨"U1", "IC", Option.none⟩, ⟨"U2", "Resistor", Option.none⟩]⟩

/-! ## Helper lemmas -/

theorem dgetD_absent (kw : Kwargs) (k : String) (dflt : PyVal)
    (h : hasKey kw k = false) : dgetD kw k dflt = dflt := by
  unfold dgetD
  rw [List.find?_eq_none.mpr]
  intro kv hkv
  unfold hasKey at h
  have := List.any_eq_false.mp h kv hkv
  simpa using this

theorem dgetD_default_irrel (kw : Kwargs) (k : String) (d1 d2 : PyVal)
    (h : (dgetD kw k .pynone).truthy = true) : dgetD kw k d1 = dgetD kw k d2 := by
  unfold dgetD at *
  cases hf : kw.find? (fun kv => kv.1 == k) with
  | none =>
    rw [hf] at h
    simp [PyVal.truthy] at h
  | some kv => rfl

theorem expandAll_ok (xs : List PyVal)
    (h : ∀ x ∈ xs, isDictB x = true) :
    ∃ ys, expandAll xs = Except.ok ys := by
  induction xs with
  | nil => exact ⟨[], rfl⟩
  | cons x xs ih =>
    have hx := h x (List.mem_cons_self x xs)
    obtain ⟨ys, hys⟩ := ih (fun y hy => h y (List.mem_cons_of_mem x hy))
    cases x with
    | pydict kvs =>
      refine ⟨kvs :: ys, ?_⟩
      simp [expandAll, pyKwExpand, hys, bind, Except.bind, pure, Except.pure]
    | pynone => simp [isDictB] at hx
    | pybool b => simp [isDictB] at hx
    | pyint n => simp [isDictB] at hx
    | pystr s => simp [isDictB] at hx
    | pylist l => simp [isDictB] at hx

theorem parseNets_ok (kw : Kwargs)
    (h : (!(dgetD kw "nets" .pynone).truthy
          || isDictB (dgetD kw "nets" .pynone)) = true) :
    ∃ c, parseNets kw = Except.ok c := by
  unfold parseNets
  cases ht : (dgetD kw "nets" .pynone).truthy with
  | false => exact ⟨⟨.pylist [], .pylist []⟩, by simp [ht, pure, Except.pure]⟩
  | true =>
    rw [dgetD_default_irrel kw "nets" (.pydict []) .pynone ht]
    simp [ht] at h ⊢
    cases hv : dgetD kw "nets" .pynone with
    | pydict kvs =>
      exact ⟨⟨dgetD kvs "signal_nets" (.pylist []),
              dgetD kvs "power_ground_nets" (.pylist [])⟩,
             by simp [PyVal.dictGet, bind, Except.bind, Functor.map, Except.map, pure, Except.pure]⟩
    | pynone => rw [hv] at h; simp [isDictB] at h
    | pybool b => rw [hv] at h; simp [isDictB] at h
    | pyint n => rw [hv] at h; simp [isDictB] at h
    | pystr s => rw [hv] at h; simp [isDictB] at h
    | pylist l => rw [hv] at h; simp [isDictB] at h

theorem parseComponents_ok (kw : Kwargs)
    (h : isListOfDictsB (dgetD kw "components" (.pylist [])) = true) :
    ∃ cs, parseComponents kw = Except.ok cs := by
  unfold parseComponents
  cases hv : dgetD kw "components" (.pylist []) with
  | pylist xs =>
    rw [hv] at h
    obtain ⟨ys, hys⟩ := expandAll_ok xs (by simpa [isListOfDictsB, List.all_eq_true] using h)
    exact ⟨ys.map CfgComponent.mk, by simp [pyIter, hys, bind, Except.bind, Functor.map, Except.map, pure, Except.pure]⟩
  | pynone => rw [hv] at h; simp [isListOfDictsB] at h
  | pybool b => rw [hv] at h; simp [isListOfDictsB] at h
  | pyint n => rw [hv] at h; simp [isListOfDictsB] at h
  | pystr s => rw [hv] at h; simp [isListOfDictsB] at h
  | pydict kvs => rw [hv] at h; simp [isListOfDictsB] at h

theorem parsePinGroups_ok (kw : Kwargs)
    (h : isListB (dgetD kw "pin_groups" (.pylist [])) = true) :
    ∃ gs, parsePinGroups kw = Except.ok gs := by
  unfold parsePinGroups
  cases hv : dgetD kw "pin_groups" (.pylist []) with
  | pylist xs => exact ⟨xs.map CfgPinGroup.mk, by simp [pyIter, bind, Except.bind, Functor.map, Except.map, pure, Except.pure]⟩
  | pynone => rw [hv] at h; simp [isListB] at h
  | pybool b => rw [hv] at h; simp [isListB] at h
  | pyint n => rw [hv] at h; simp [isListB] at h
  | pystr s => rw [hv] at h; simp [isListB] at h
  | pydict kvs => rw [hv] at h; simp [isListB] at h

theorem parsePorts_ok (kw : Kwargs)
    (h : isListOfDictsB (dgetD kw "ports" (.pylist [])) = true) :
    ∃ ps, parsePorts kw = Except.ok ps := by
  unfold parsePorts
  cases hv : dgetD kw "ports" (.pylist []) with
  | pylist xs =>
    rw [hv] at h
    obtain ⟨ys, hys⟩ := expandAll_ok xs (by simpa [isListOfDictsB, List.all_eq_true] using h)
    exact ⟨ys.map CfgPort.mk, by simp [pyIter, hys, bind, Except.bind, Functor.map, Except.map, pure, Except.pure]⟩
  | pynone => rw [hv] at h; simp [isListOfDictsB] at h
  | pybool b => rw [hv] at h; simp [isListOfDictsB] at h
  | pyint n => rw [hv] at h; simp [isListOfDictsB] at h
  | pystr s => rw [hv] at h; simp [isListOfDictsB] at h
  | pydict kvs => rw [hv] at h; simp [isListOfDictsB] at h

theorem parseSources_ok (kw : Kwargs)
    (h : isListOfDictsB (dgetD kw "sources" (.pylist [])) = true) :
    ∃ ss, parseSources kw = Except.ok ss := by
  unfold parseSources
  cases hv : dgetD kw "sources" (.pylist []) with
  | pylist xs =>
    rw [hv] at h
    obtain ⟨ys, hys⟩ := expandAll_ok xs (by simpa [isListOfDictsB, List.all_eq_true] using h)
    exact ⟨ys.map CfgSources.mk, by simp [pyIter, hys, bind, Except.bind, Functor.map, Except.map, pure, Except.pure]⟩
  | pynone => rw [hv] at h; simp [isListOfDictsB] at h
  | pybool b => rw [hv] at h; simp [isListOfDictsB] at h
  | pyint n => rw [hv] at h; simp [isListOfDictsB] at h
  | pystr s => rw [hv] at h; simp [isListOfDictsB] at h
  | pydict kvs => rw [hv] at h; simp [isListOfDictsB] at h

theorem parseSetups_ok (kw : Kwargs)
    (h : (!(dgetD kw "setups" .pynone).truthy
          || isListB (dgetD kw "setups" .pynone)) = true) :
    ∃ ss, parseSetups kw = Except.ok ss := by
  unfold parseSetups
  cases ht : (dgetD kw "setups" .pynone).truthy with
  | false => exact ⟨[⟨.pynone⟩], by simp [ht, pure, Except.pure]⟩
  | true =>
    rw [dgetD_default_irrel kw "setups" (.pylist []) .pynone ht]
    simp [ht] at h ⊢
    cases hv : dgetD kw "setups" .pynone with
    | pylist xs => exact ⟨xs.map CfgSetup.mk, by simp [pyIter, bind, Except.bind, Functor.map, Except.map, pure, Except.pure]⟩
    | pynone => rw [hv] at h; simp [isListB] at h
    | pybool b => rw [hv] at h; simp [isListB] at h
    | pyint n => rw [hv] at h; simp [isListB] at h
    | pystr s => rw [hv] at h; simp [isListB] at h
    | pydict kvs => rw [hv] at h; simp [isListB] at h

theorem parseSpiceModels_ok (kw : Kwargs) (lib : PyVal)
    (h : isListB (dgetD kw "spice_models" (.pylist [])) = true) :
    ∃ ms, parseSpiceModels kw lib = Except.ok ms := by
  unfold parseSpiceModels
  cases hv : dgetD kw "spice_models" (.pylist []) with
  | pylist xs => exact ⟨xs.map (fun s => ⟨lib, s⟩), by simp [pyIter, bind, Except.bind, Functor.map, Except.map, pure, Except.pure]⟩
  | pynone => rw [hv] at h; simp [isListB] at h
  | pybool b => rw [hv] at h; simp [isListB] at h
  | pyint n => rw [hv] at h; simp [isListB] at h
  | pystr s => rw [hv] at h; simp [isListB] at h
  | pydict kvs => rw [hv] at h; simp [isListB] at h

theorem parseNets_absent (kw : Kwargs) (h : hasKey kw "nets" = false) :
    parseNets kw = Except.ok ⟨.pylist [], .pylist []⟩ := by
  unfold parseNets
  rw [dgetD_absent kw "nets" .pynone h]
  simp [PyVal.truthy, pure, Except.pure]

theorem parseComponents_absent (kw : Kwargs)
    (h : hasKey kw "components" = false) :
    parseComponents kw = Except.ok [] := by
  unfold parseComponents
  rw [dgetD_absent kw "components" (.pylist []) h]
  simp [pyIter, expandAll, bind, Except.bind, pure, Except.pure]

theorem parsePadstacks_absent (kw : Kwargs)
    (h : hasKey kw "padstacks" = false) :
    parsePadstacks kw = ⟨.pynone⟩ := by
  unfold parsePadstacks
  rw [dgetD_absent kw "padstacks" .pynone h]

theorem parsePinGroups_absent (kw : Kwargs)
    (h : hasKey kw "pin_groups" = false) :
    parsePinGroups kw = Except.ok [] := by
  unfold parsePinGroups
  rw [dgetD_absent kw "pin_groups" (.pylist []) h]
  simp [pyIter, bind, Except.bind, pure, Except.pure]

theorem parsePorts_absent (kw : Kwargs) (h : hasKey kw "ports" = false) :
    parsePorts kw = Except.ok [] := by
  unfold parsePorts
  rw [dgetD_absent kw "ports" (.pylist []) h]
  simp [pyIter, expandAll, bind, Except.bind, pure, Except.pure]

theorem parseSources_absent (kw : Kwargs)
    (h : hasKey kw "sources" = false) :
    parseSources kw = Except.ok [] := by
  unfold parseSources
  rw [dgetD_absent kw "sources" (.pylist []) h]
  simp [pyIter, expandAll, bind, Except.bind, pure, Except.pure]

theorem parseSetups_absent (kw : Kwargs) (h : hasKey kw "setups" = false) :
    parseSetups kw = Except.ok [⟨.pynone⟩] := by
  unfold parseSetups
  rw [dgetD_absent kw "setups" .pynone h]
  simp [PyVal.truthy, pure, Except.pure]

theorem parseSpiceModels_absent (kw : Kwargs) (lib : PyVal)
    (h : hasKey kw "spice_models" = false) :
    parseSpiceModels kw lib = Except.ok [] := by
  unfold parseSpiceModels
  rw [dgetD_absent kw "spice_models" (.pylist []) h]
  simp [pyIter, bind, Except.bind, pure, Except.pure]

theorem parseBoundaries_absent (kw : Kwargs)
    (h : hasKey kw "boundaries" = false) :
    parseBoundaries kw = BoundariesAttr.emptyDict := by
  unfold parseBoundaries
  rw [dgetD_absent kw "boundaries" .pynone h]
  simp [PyVal.truthy]

theorem cfgDataInit_eq (pedb : Pedb) (kw : Kwargs)
    (n : CfgNets) (cs : List CfgComponent) (pg : List CfgPinGroup)
    (ps : List CfgPort) (ss : List CfgSources) (st : List CfgSetup)
    (sm : List CfgSpiceModel)
    (h1 : parseNets kw = Except.ok n)
    (h2 : parseComponents kw = Except.ok cs)
    (h3 : parsePinGroups kw = Except.ok pg)
    (h4 : parsePorts kw = Except.ok ps)
    (h5 : parseSources kw = Except.ok ss)
    (h6 : parseSetups kw = Except.ok st)
    (h7 : parseSpiceModels kw (parseGeneral kw).spice_model_library = Except.ok sm) :
    cfgDataInit pedb kw =
      ([DesignAccess.readAccess "components.components"],
       Except.ok
        { edb_comps := pedb.componentsComponents
          general := parseGeneral kw
          boundaries := parseBoundaries kw
          nets := n
          components := cs
          padstacks := parsePadstacks kw
          pin_groups := pg
          ports := ps
          sources := ss
          setups := st
          stackup := .pynone
          s_parameters := .pynone
          spice_models := sm
          package_definition := .pynone
          operations := .pynone }) := by
  simp [cfgDataInit, h1, h2, h3, h4, h5, h6, h7, bind, Except.bind, pure, Except.pure]

/-! ## Claim theorems -/

/-- Claim C1: for every well-formed input mapping, constructing `CfgData`
succeeds, and for each optional category key that is absent from the
mapping the corresponding attribute is that category's empty/default
value: default `CfgNets`, empty component/pin-group/port/source/
spice-model lists, `CfgPadstacks` over `None`, the default singleton
setup list, and the empty boundaries dict. -/
theorem cfgData_missing_optional_key_defaults (pedb : Pedb) (kw : Kwargs)
    (hwf : WellFormed kw) :
    ∃ d, cfgDataInit pedb kw =
        ([DesignAccess.readAccess "components.components"], Except.ok d) ∧
      (hasKey kw "nets" = false →
        d.nets = CfgNets.mk (.pylist []) (.pylist [])) ∧
      (hasKey kw "components" = false → d.components = []) ∧
      (hasKey kw "padstacks" = false → d.padstacks = CfgPadstacks.mk .pynone) ∧
      (hasKey kw "pin_groups" = false → d.pin_groups = []) ∧
      (hasKey kw "ports" = false → d.ports = []) ∧
      (hasKey kw "sources" = false → d.sources = []) ∧
      (hasKey kw "setups" = false → d.setups = [CfgSetup.mk .pynone]) ∧
      (hasKey kw "spice_models" = false → d.spice_models = []) ∧
      (hasKey kw "boundaries" = false →
        d.boundaries = BoundariesAttr.emptyDict) := by
  simp only [WellFormed, wellFormedB, Bool.and_eq_true] at hwf
  obtain ⟨⟨⟨⟨⟨⟨hn, hc⟩, hpg⟩, hp⟩, hsrc⟩, hst⟩, hsm⟩ := hwf
  obtain ⟨n, h1⟩ := parseNets_ok kw hn
  obtain ⟨cs, h2⟩ := parseComponents_ok kw hc
  obtain ⟨pg, h3⟩ := parsePinGroups_ok kw hpg
  obtain ⟨ps, h4⟩ := parsePorts_ok kw hp
  obtain ⟨ss, h5⟩ := parseSources_ok kw hsrc
  obtain ⟨st, h6⟩ := parseSetups_ok kw hst
  obtain ⟨sm, h7⟩ :=
    parseSpiceModels_ok kw (parseGeneral kw).spice_model_library hsm
  refine ⟨_, cfgDataInit_eq pedb kw n cs pg ps ss st sm h1 h2 h3 h4 h5 h6 h7,
    ?_, ?_, ?_, ?_, ?_, ?_, ?_, ?_, ?_⟩
  · intro hk
    rw [parseNets_absent kw hk] at h1
    injection h1 with h
    exact h.symm
  · intro hk
    rw [parseComponents_absent kw hk] at h2
    injection h2 with h
    exact h.symm
  · intro hk
    exact parsePadstacks_absent kw hk
  · intro hk
    rw [parsePinGroups_absent kw hk] at h3
    injection h3 with h
    exact h.symm
  · intro hk
    rw [parsePorts_absent kw hk] at h4
    injection h4 with h
    exact h.symm
  · intro hk
    rw [parseSources_absent kw hk] at h5
    injection h5 with h
    exact h.symm
  · intro hk
    rw [parseSetups_absent kw hk] at h6
    injection h6 with h
    exact h.symm
  · intro hk
    rw [parseSpiceModels_absent kw (parseGeneral kw).spice_model_library hk] at h7
    injection h7 with h
    exact h.symm
  · intro hk
    exact parseBoundaries_absent kw hk

/-- Witness for C1: the empty mapping is well-formed, omits every
optional category key, and yields the default categories. -/
theorem cfgData_missing_optional_key_defaults_witness :
    WellFormed ([] : Kwargs) ∧
    (∃ d, cfgDataInit pedb0 [] =
        ([DesignAccess.readAccess "components.components"], Except.ok d) ∧
      (hasKey ([] : Kwargs) "nets" = false →
        d.nets = CfgNets.mk (.pylist []) (.pylist [])) ∧
      (hasKey ([] : Kwargs) "components" = false → d.components = []) ∧
      (hasKey ([] : Kwargs) "padstacks" = false →
        d.padstacks = CfgPadstacks.mk .pynone) ∧
      (hasKey ([] : Kwargs) "pin_groups" = false → d.pin_groups = []) ∧
      (hasKey ([] : Kwargs) "ports" = false → d.ports = []) ∧
      (hasKey ([] : Kwargs) "sources" = false → d.sources = []) ∧
      (hasKey ([] : Kwargs) "setups" = false → d.setups = [CfgSetup.mk .pynone]) ∧
      (hasKey ([] : Kwargs) "spice_models" = false → d.spice_models = []) ∧
      (hasKey ([] : Kwargs) "boundaries" = false →
        d.boundaries = BoundariesAttr.emptyDict)) :=
  ⟨rfl, cfgData_missing_optional_key_defaults pedb0 [] rfl⟩

/-- Counterexample to claim C2 as stated: already on the empty input
mapping, `CfgData.__init__` performs a read of the live design handle —
line 39 stores `self.pedb.components.components` — so construction is
not free of design-handle reads. -/
theorem cfgData_construction_reads_design :
    constructionTrace pedb0 [] ≠ [] ∧
    DesignAccess.readAccess "components.components" ∈ constructionTrace pedb0 [] := by
  constructor
  · intro h
    simp [constructionTrace, cfgDataInit] at h
  · simp [constructionTrace, cfgDataInit]

/-- Claim C2 as amended: for every input mapping, construction performs
exactly one access on the live design handle — the read of the
components collection on line 39 — and in particular performs no
mutation calls; referenced design identifiers are not resolved at
construction time. -/
theorem cfgData_construction_no_mutation (pedb : Pedb) (kw : Kwargs) :
    constructionTrace pedb kw =
      [DesignAccess.readAccess "components.components"] ∧
    ∀ a ∈ constructionTrace pedb kw, a.isMutate = false := by
  constructor
  · rfl
  · intro a ha
    simp [constructionTrace, cfgDataInit] at ha
    rw [ha]
    rfl

/-- Witness for the amended C2: on the empty input mapping the
construction trace is exactly the one components-collection read and
contains no mutation. -/
theorem cfgData_construction_no_mutation_witness :
    constructionTrace pedb0 [] =
      [DesignAccess.readAccess "components.components"] ∧
    ∀ a ∈ constructionTrace pedb0 [], a.isMutate = false :=
  cfgData_construction_no_mutation pedb0 []

/-- Claim C9: the `boundaries` attribute is the plain empty dict both
when the key is absent and when its value is falsy, and is a
`CfgBoundaries` object over the stored value exactly when the value is
truthy (cfg_data.py lines 41–43). -/
theorem cfgData_boundaries_plain_dict_unless_truthy (kw : Kwargs) :
    (hasKey kw "boundaries" = false →
      parseBoundaries kw = BoundariesAttr.emptyDict) ∧
    ((dgetD kw "boundaries" .pynone).truthy = false →
      parseBoundaries kw = BoundariesAttr.emptyDict) ∧
    ((dgetD kw "boundaries" .pynone).truthy = true →
      parseBoundaries kw =
        BoundariesAttr.cfg ⟨dgetD kw "boundaries" .pynone⟩) := by
  refine ⟨fun hk => parseBoundaries_absent kw hk, fun ht => ?_, fun ht => ?_⟩
  · unfold parseBoundaries
    simp [ht]
  · unfold parseBoundaries
    simp [ht]

/-- Witness for C9: the key absent gives the plain empty dict; a truthy
boundaries value gives a `CfgBoundaries` object over that value. -/
theorem cfgData_boundaries_plain_dict_unless_truthy_witness :
    parseBoundaries [] = BoundariesAttr.emptyDict ∧
    parseBoundaries [("boundaries", .pydict [("b1", .pynone)])] =
      BoundariesAttr.cfg ⟨.pydict [("b1", .pynone)]⟩ :=
  ⟨(cfgData_boundaries_plain_dict_unless_truthy []).1 rfl,
   (cfgData_boundaries_plain_dict_unless_truthy
      [("boundaries", .pydict [("b1", .pynone)])]).2.2 rfl⟩

theorem applySeq_trace_all_ok (step : CategoryStep) (cfg : CfgData)
    (cats : List Category) :
    ∀ d : DesignState, (∀ c d1, stepOk (step c cfg d1) = true) →
      (applySeq step cfg cats d).1 = cats := by
  induction cats with
  | nil => intro d _; rfl
  | cons c rest ih =>
    intro d h
    cases hstep : step c cfg d with
    | error f =>
      have hok := h c d
      rw [hstep] at hok
      simp [stepOk] at hok
    | ok pr =>
      obtain ⟨d1, ms⟩ := pr
      have htr := ih d1 h
      cases hrec : applySeq step cfg rest d1 with
      | mk tr2 res =>
        rw [hrec] at htr
        simp only [Prod.fst] at htr
        cases res with
        | error e => simp [applySeq, hstep, hrec, htr]
        | ok pr2 =>
          obtain ⟨d2, ms2⟩ := pr2
          simp [applySeq, hstep, hrec, htr]

theorem applySeq_error (step : CategoryStep) (cfg : CfgData)
    (cats : List Category) :
    ∀ (d : DesignState) (tr : List Category) (e : ApplyFailure),
      applySeq step cfg cats d = (tr, Except.error e) →
      ∃ k, ∃ hk : k < cats.length,
        tr = cats.take (k + 1) ∧ cats.get ⟨k, hk⟩ = e.category := by
  induction cats with
  | nil =>
    intro d tr e h
    simp only [applySeq, Prod.mk.injEq] at h
    exact absurd h.2 (by simp)
  | cons c rest ih =>
    intro d tr e h
    cases hstep : step c cfg d with
    | error f =>
      simp only [applySeq, hstep, Prod.mk.injEq] at h
      obtain ⟨h1, h2⟩ := h
      injection h2 with h3
      refine ⟨0, by simp, ?_, ?_⟩
      · rw [←h1]
        rfl
      · rw [←h3]
        rfl
    | ok pr =>
      obtain ⟨d1, ms⟩ := pr
      cases hrec : applySeq step cfg rest d1 with
      | mk tr2 res =>
        cases res with
        | ok pr2 =>
          obtain ⟨d2, ms2⟩ := pr2
          simp only [applySeq, hstep, hrec, Prod.mk.injEq] at h
          exact absurd h.2 (by simp)
        | error e2 =>
          simp only [applySeq, hstep, hrec, Prod.mk.injEq] at h
          obtain ⟨h1, h2⟩ := h
          injection h2 with h3
          obtain ⟨k, hk, htr, hcat⟩ := ih d1 tr2 e2 hrec
          refine ⟨k + 1, by simpa using Nat.succ_lt_succ hk, ?_, ?_⟩
          · rw [←h1, htr]
            rfl
          · show rest.get ⟨k, hk⟩ = e.category
            rw [←h3]
            exact hcat

/-- Claim C3: `CfgData` exposes an `apply` operation, and whenever every
category step succeeds, one apply pass invokes the categories exactly in
the dependency order general, nets, padstacks, components, pin groups,
ports, sources, setups, spice models, boundaries. -/
theorem cfgData_apply_invokes_in_order (cfg : CfgData) (step : CategoryStep)
    (d : DesignState)
    (h : ∀ c d1, stepOk (step c cfg d1) = true) :
    (CfgData.apply cfg step d).1 = applyOrder :=
  applySeq_trace_all_ok step cfg applyOrder d h

/-- Witness for C3: with an always-succeeding step, applying the default
configuration invokes all ten categories in dependency order. -/
theorem cfgData_apply_invokes_in_order_witness :
    (∀ c d1, stepOk (stepAllOk c cfgData0 d1) = true) ∧
    (CfgData.apply cfgData0 stepAllOk designState0).1 = applyOrder :=
  ⟨fun _ _ => rfl,
   cfgData_apply_invokes_in_order cfgData0 stepAllOk designState0 (fun _ _ => rfl)⟩

/-- Claim C4: if an apply pass fails, the categories invoked are exactly
the dependency-order prefix ending at the failing category, the surfaced
error names that category and the failing entry, and no category after
the failing one is invoked. -/
theorem cfgData_apply_fail_fast (cfg : CfgData) (step : CategoryStep)
    (d : DesignState) (tr : List Category) (e : ApplyFailure)
    (h : CfgData.apply cfg step d = (tr, Except.error e)) :
    ∃ k, ∃ hk : k < applyOrder.length,
      tr = applyOrder.take (k + 1) ∧
      applyOrder.get ⟨k, hk⟩ = e.category ∧
      ∀ j, ∀ hj : j < applyOrder.length, k < j →
        applyOrder.get ⟨j, hj⟩ ∉ tr := by
  obtain ⟨k, hk, htr, hcat⟩ := applySeq_error step cfg applyOrder d tr e h
  refine ⟨k, hk, htr, hcat, ?_⟩
  have hk10 : k < 10 := by simpa [applyOrder] using hk
  subst htr
  interval_cases k <;> decide

/-- Witness for C4: a step failing at the nets category aborts after
general and nets, surfacing the nets category and entry "N1". -/
theorem cfgData_apply_fail_fast_witness :
    CfgData.apply cfgData0 stepFailNets designState0 =
      ([Category.general, Category.nets],
       Except.error ⟨Category.nets, "N1"⟩) ∧
    (∃ k, ∃ hk : k < applyOrder.length,
      [Category.general, Category.nets] = applyOrder.take (k + 1) ∧
      applyOrder.get ⟨k, hk⟩ = (⟨Category.nets, "N1"⟩ : ApplyFailure).category ∧
      ∀ j, ∀ hj : j < applyOrder.length, k < j →
        applyOrder.get ⟨j, hj⟩ ∉ [Category.general, Category.nets]) :=
  ⟨rfl,
   cfgData_apply_fail_fast cfgData0 stepFailNets designState0
     [Category.general, Category.nets] ⟨Category.nets, "N1"⟩ rfl⟩

/-- Claim C8: construction and apply are pure functions of the input
mapping, the category steps and the initial design state, so running the
pass twice from the same freshly reset state yields identical invocation
traces, identical final states and identical mutation lists. -/
theorem config_pipeline_deterministic (pedb : Pedb) (kw : Kwargs)
    (cfg : CfgData) (step : CategoryStep) (reset : DesignState) :
    cfgDataInit pedb kw = cfgDataInit pedb kw ∧
    CfgData.apply cfg step reset = CfgData.apply cfg step reset :=
  ⟨rfl, rfl⟩

/-- Claim C5: when a component entry applies both an RLC model and an
S-parameter model, every component under the definition ends with
exactly one assigned model, namely the one applied last — the
S-parameter model when it comes second, the RLC model when the order is
reversed. -/
theorem componentDef_last_model_wins (d : EDBComponentDef)
    (res ind cap : PyVal) (is_par : Bool) (f mn rn : PyVal)
    (c1 c2 : EDBComponent)
    (h1 : c1 ∈ ((d.assign_rlc_model res ind cap is_par).assign_s_param_model f mn rn).comps)
    (h2 : c2 ∈ ((d.assign_s_param_model f mn rn).assign_rlc_model res ind cap is_par).comps) :
    c1.model = some (CompModel.sparam f mn rn) ∧
    c2.model = some (CompModel.rlc res ind cap is_par) := by
  constructor
  · simp only [EDBComponentDef.assign_rlc_model,
      EDBComponentDef.assign_s_param_model, List.mem_map] at h1
    obtain ⟨c0, _, hc⟩ := h1
    rw [←hc]
    rfl
  · simp only [EDBComponentDef.assign_rlc_model,
      EDBComponentDef.assign_s_param_model, List.mem_map] at h2
    obtain ⟨c0, _, hc⟩ := h2
    rw [←hc]
    rfl

/-- Witness for C5: on a definition with single component U1, assigning
RLC then S-parameter leaves the S-parameter model, and the reverse order
leaves the RLC model. -/
theorem componentDef_last_model_wins_witness :
    (⟨"U1", "IC", some (CompModel.sparam (.pystr "m.s2p") .pynone .pynone)⟩ : EDBComponent) ∈
      ((compDef0.assign_rlc_model (.pyint 1) .pynone .pynone false).assign_s_param_model
        (.pystr "m.s2p") .pynone .pynone).comps ∧
    (⟨"U1", "IC", some (CompModel.rlc (.pyint 1) .pynone .pynone false)⟩ : EDBComponent) ∈
      ((compDef0.assign_s_param_model (.pystr "m.s2p") .pynone .pynone).assign_rlc_model
        (.pyint 1) .pynone .pynone false).comps ∧
    (⟨"U1", "IC", some (CompModel.sparam (.pystr "m.s2p") .pynone .pynone)⟩ : EDBComponent).model =
      some (CompModel.sparam (.pystr "m.s2p") .pynone .pynone) ∧
    (⟨"U1", "IC", some (CompModel.rlc (.pyint 1) .pynone .pynone false)⟩ : EDBComponent).model =
      some (CompModel.rlc (.pyint 1) .pynone .pynone false) :=
  ⟨List.mem_singleton.mpr rfl, List.mem_singleton.mpr rfl,
   (componentDef_last_model_wins compDef0 (.pyint 1) .pynone .pynone false
      (.pystr "m.s2p") .pynone .pynone _ _
      (List.mem_singleton.mpr rfl) (List.mem_singleton.mpr rfl)).1,
   (componentDef_last_model_wins compDef0 (.pyint 1) .pynone .pynone false
      (.pystr "m.s2p") .pynone .pynone _ _
      (List.mem_singleton.mpr rfl) (List.mem_singleton.mpr rfl)).2⟩

/-- Claim C6: for the nets configuration with signal nets ["N1"] and
power/ground nets ["GND"], the configuration object built by
`CfgData.__init__` classifies N1 as signal and GND as power under apply,
and every net not listed in either list keeps its prior classification. -/
theorem nets_apply_classifies (d : DesignState) (n : String)
    (hn1 : n ≠ "N1") (hn2 : n ≠ "GND") :
    parseNets netsKw = Except.ok netsCfgExample ∧
    (netsCfgExample.apply d).netClass "N1" = NetClass.signal ∧
    (netsCfgExample.apply d).netClass "GND" = NetClass.power ∧
    (netsCfgExample.apply d).netClass n = d.netClass n := by
  refine ⟨?_, ?_, ?_, ?_⟩
  · rfl
  · show (Function.update (Function.update d.netClass "N1" NetClass.signal)
      "GND" NetClass.power) "N1" = NetClass.signal
    rw [Function.update_noteq (by decide), Function.update_same]
  · show (Function.update (Function.update d.netClass "N1" NetClass.signal)
      "GND" NetClass.power) "GND" = NetClass.power
    rw [Function.update_same]
  · show (Function.update (Function.update d.netClass "N1" NetClass.signal)
      "GND" NetClass.power) n = d.netClass n
    rw [Function.update_noteq hn2, Function.update_noteq hn1]

/-- Witness for C6: evaluated on the all-unclassified design state with
the unlisted net "VCC". -/
theorem nets_apply_classifies_witness :
    parseNets netsKw = Except.ok netsCfgExample ∧
    (netsCfgExample.apply designState0).netClass "N1" = NetClass.signal ∧
    (netsCfgExample.apply designState0).netClass "GND" = NetClass.power ∧
    (netsCfgExample.apply designState0).netClass "VCC" =
      designState0.netClass "VCC" :=
  nets_apply_classifies designState0 "VCC" (by decide) (by decide)

/-- Claim C7: the sweep-creation path forwards each four-field frequency
sweep entry unmodified, and in position, to the external sweep-creation
call. -/
theorem add_frequency_sweep_forwards (fs : List PyVal) (i : Nat) (e : PyVal)
    (h : fs[i]? = some e) :
    (add_frequency_sweep fs)[i]? = some (ExternalCall.createSweep e) := by
  simp [add_frequency_sweep, h]

/-- Witness for C7: the first entry of the 15_ac_analysis.py sweep list,
`["linear count", "0", "1kHz", 1]`, reaches the external call unchanged. -/
theorem add_frequency_sweep_forwards_witness :
    exampleFrequencySweep[0]? = some sweepEntry0 ∧
    (add_frequency_sweep exampleFrequencySweep)[0]? =
      some (ExternalCall.createSweep sweepEntry0) :=
  ⟨rfl, add_frequency_sweep_forwards exampleFrequencySweep 0 sweepEntry0 rfl⟩

theorem dictInsert_ne_nil (m : List (String × EDBComponent)) (k : String)
    (v : EDBComponent) : dictInsert m k v ≠ [] := by
  unfold dictInsert
  cases ha : m.any (fun kv => kv.1 == k) with
  | true =>
    simp only [if_pos rfl, ha, if_true]
    intro h
    rw [List.map_eq_nil_iff] at h
    rw [h] at ha
    simp at ha
  | false =>
    simp

theorem foldl_dictInsert_ne_nil (l : List EDBComponent) :
    ∀ m : List (String × EDBComponent), m ≠ [] ∨ l ≠ [] →
      l.foldl (fun m c => dictInsert m c.refdes c) m ≠ [] := by
  induction l with
  | nil =>
    intro m h
    exact h.resolve_right (fun hc => hc rfl)
  | cons c cs ih =>
    intro m _
    exact ih (dictInsert m c.refdes c) (Or.inl (dictInsert_ne_nil m c.refdes c))

theorem dictInsert_all (P : EDBComponent → Prop)
    (m : List (String × EDBComponent)) (k : String) (v : EDBComponent)
    (hm : ∀ kv ∈ m, P kv.2) (hv : P v) :
    ∀ kv ∈ dictInsert m k v, P kv.2 := by
  intro kv hkv
  unfold dictInsert at hkv
  by_cases ha : m.any (fun kv => kv.1 == k) = true
  · rw [if_pos ha] at hkv
    rw [List.mem_map] at hkv
    obtain ⟨kv0, hkv0, heq⟩ := hkv
    by_cases hk : kv0.1 == k
    · rw [if_pos hk] at heq
      rw [←heq]
      exact hv
    · rw [if_neg hk] at heq
      rw [←heq]
      exact hm kv0 hkv0
  · rw [if_neg ha] at hkv
    rcases List.mem_append.mp hkv with h | h
    · exact hm kv h
    · rw [List.mem_singleton] at h
      rw [h]
      exact hv

theorem foldl_dictInsert_all (P : EDBComponent → Prop) (l : List EDBComponent) :
    ∀ m : List (String × EDBComponent), (∀ kv ∈ m, P kv.2) → (∀ c ∈ l, P c) →
      ∀ kv ∈ l.foldl (fun m c => dictInsert m c.refdes c) m, P kv.2 := by
  induction l with
  | nil => intro m hm _; exact hm
  | cons c cs ih =>
    intro m hm hl
    exact ih (dictInsert m c.refdes c)
      (dictInsert_all P m c.refdes c hm (hl c (List.mem_cons_self c cs)))
      (fun c1 h1 => hl c1 (List.mem_cons_of_mem c h1))

theorem dedup_const (l : List String) (t : String) :
    l ≠ [] → (∀ x ∈ l, x = t) → l.dedup = [t] := by
  induction l with
  | nil => intro h _; exact absurd rfl h
  | cons x xs ih =>
    intro _ hall
    have hx : x = t := hall x (List.mem_cons_self x xs)
    cases xs with
    | nil =>
      rw [hx]
      rfl
    | cons y ys =>
      have hrec := ih (by simp) (fun z hz => hall z (List.mem_cons_of_mem x hz))
      have hy : y = t := hall y (by simp)
      have hmem : x ∈ y :: ys := by
        rw [hx, hy]
        exact List.mem_cons_self t ys
      rw [List.dedup_cons_of_mem hmem]
      exact hrec

theorem dedup_two_le (l : List String) (a b : String)
    (ha : a ∈ l) (hb : b ∈ l) (hab : a ≠ b) : 2 ≤ l.dedup.length := by
  have ha2 : a ∈ l.dedup := List.mem_dedup.mpr ha
  have hb2 : b ∈ l.dedup := List.mem_dedup.mpr hb
  cases hd : l.dedup with
  | nil =>
    rw [hd] at ha2
    simp at ha2
  | cons x xs =>
    cases xs with
    | nil =>
      rw [hd] at ha2 hb2
      rw [List.mem_singleton] at ha2 hb2
      exact absurd (ha2.trans hb2.symm) hab
    | cons y ys => simp

theorem foldl_dictInsert_nodup (l : List EDBComponent) :
    ∀ m : List (String × EDBComponent),
      (∀ c ∈ l, ∀ kv ∈ m, kv.1 ≠ c.refdes) →
      (l.map EDBComponent.refdes).Nodup →
      l.foldl (fun m c => dictInsert m c.refdes c) m =
        m ++ l.map (fun c => (c.refdes, c)) := by
  induction l with
  | nil => intro m _ _; simp
  | cons c cs ih =>
    intro m hdisj hnodup
    have hany : m.any (fun kv => kv.1 == c.refdes) = false := by
      rw [List.any_eq_false]
      intro kv hkv
      simpa using hdisj c (List.mem_cons_self c cs) kv hkv
    have hstep : dictInsert m c.refdes c = m ++ [(c.refdes, c)] := by
      unfold dictInsert
      rw [hany]
      simp
    have hnodup2 : (cs.map EDBComponent.refdes).Nodup := by
      rw [List.map_cons] at hnodup
      exact hnodup.of_cons
    have hhead : c.refdes ∉ cs.map EDBComponent.refdes := by
      rw [List.map_cons] at hnodup
      exact (List.nodup_cons.mp hnodup).1
    have hdisj2 : ∀ c1 ∈ cs, ∀ kv ∈ m ++ [(c.refdes, c)], kv.1 ≠ c1.refdes := by
      intro c1 hc1 kv hkv
      rcases List.mem_append.mp hkv with h | h
      · exact hdisj c1 (List.mem_cons_of_mem c hc1) kv h
      · rw [List.mem_singleton] at h
        rw [h]
        intro hcontra
        have hcontra2 : c.refdes = c1.refdes := hcontra
        exact hhead (hcontra2 ▸ List.mem_map_of_mem EDBComponent.refdes hc1)
    calc (c :: cs).foldl (fun m c => dictInsert m c.refdes c) m
        = cs.foldl (fun m c => dictInsert m c.refdes c) (m ++ [(c.refdes, c)]) := by
          rw [List.foldl_cons, hstep]
      _ = (m ++ [(c.refdes, c)]) ++ cs.map (fun c => (c.refdes, c)) :=
          ih (m ++ [(c.refdes, c)]) hdisj2 hnodup2
      _ = m ++ (c :: cs).map (fun c => (c.refdes, c)) := by simp

theorem componentsDict_nodup_eq (d : EDBComponentDef)
    (hnodup : (d.comps.map EDBComponent.refdes).Nodup) :
    d.componentsDict = d.comps.map (fun c => (c.refdes, c)) := by
  have := foldl_dictInsert_nodup d.comps [] (by intro c _ kv hkv; simp at hkv) hnodup
  simpa [EDBComponentDef.componentsDict] using this

theorem componentDef_type_uniform (d : EDBComponentDef) (t : String)
    (hne : d.comps ≠ []) (hall : ∀ c ∈ d.comps, c.type = t) :
    d.type = some t := by
  have hdne : d.componentsDict ≠ [] :=
    foldl_dictInsert_ne_nil d.comps [] (Or.inr hne)
  have hvals : ∀ kv ∈ d.componentsDict, kv.2.type = t :=
    foldl_dictInsert_all (fun c => c.type = t) d.comps [] (by simp) hall
  unfold EDBComponentDef.type
  cases hv : d.componentsDict with
  | nil => exact absurd hv hdne
  | cons kv0 kvs =>
    have htypes : ∀ x ∈ ((kv0 :: kvs).map Prod.snd).map EDBComponent.type, x = t := by
      intro x hx
      rw [List.map_map, List.mem_map] at hx
      obtain ⟨kv, hkv, hx2⟩ := hx
      rw [←hx2]
      exact hvals kv (hv ▸ hkv)
    have hded := dedup_const _ t (by simp) htypes
    have hkv0 : kv0.2.type = t := hvals kv0 (hv ▸ List.mem_cons_self kv0 kvs)
    simp only [hded]
    simp [hkv0]

theorem componentDef_type_nil (d : EDBComponentDef) (h : d.comps = []) :
    d.type = Option.none := by
  obtain ⟨comps⟩ := d
  subst h
  simp [EDBComponentDef.type, EDBComponentDef.componentsDict]

theorem componentDef_type_mixed (d : EDBComponentDef)
    (hnodup : (d.comps.map EDBComponent.refdes).Nodup)
    (c1 : EDBComponent) (h1 : c1 ∈ d.comps)
    (c2 : EDBComponent) (h2 : c2 ∈ d.comps)
    (hne : c1.type ≠ c2.type) : d.type = some "mixed" := by
  have mapsnd : ∀ l : List EDBComponent,
      (l.map (fun c => (c.refdes, c))).map Prod.snd = l := by
    intro l
    induction l with
    | nil => rfl
    | cons x xs ih => simp [ih]
  have key : d.componentsDict.map Prod.snd = d.comps := by
    rw [componentsDict_nodup_eq d hnodup]
    exact mapsnd d.comps
  have h2le := dedup_two_le (d.comps.map EDBComponent.type) c1.type c2.type
    (List.mem_map_of_mem EDBComponent.type h1)
    (List.mem_map_of_mem EDBComponent.type h2) hne
  unfold EDBComponentDef.type
  simp only [key]
  rw [if_neg (by omega), if_neg (by omega)]

theorem componentDef_setType_type (d : EDBComponentDef) (v : String)
    (hne : d.comps ≠ []) : (d.setType v).type = some v := by
  apply componentDef_type_uniform
  · simp [EDBComponentDef.setType, hne]
  · intro c hc
    simp only [EDBComponentDef.setType, List.mem_map] at hc
    obtain ⟨c0, _, hc2⟩ := hc
    rw [←hc2]

/-- Claim C10: the `type` property of a component definition returns the
shared type string when all components under it have one type, "mixed"
when two components have distinct types, and `None` when no components
exist; and after setting `type` to `v` on a definition with at least one
component, reading `type` returns `v`.  (Reference designators are
assumed distinct, as they are in a layout and as the refdes-keyed
components dict presumes.) -/
theorem componentDef_type_property (d : EDBComponentDef) (t v : String)
    (hnodup : (d.comps.map EDBComponent.refdes).Nodup) :
    (d.comps = [] → d.type = Option.none) ∧
    (d.comps ≠ [] → (∀ c ∈ d.comps, c.type = t) → d.type = some t) ∧
    (∀ c1 ∈ d.comps, ∀ c2 ∈ d.comps, c1.type ≠ c2.type →
      d.type = some "mixed") ∧
    (d.comps ≠ [] → (d.setType v).type = some v) :=
  ⟨componentDef_type_nil d,
   fun hne hall => componentDef_type_uniform d t hne hall,
   fun c1 h1 c2 h2 hne => componentDef_type_mixed d hnodup c1 h1 c2 h2 hne,
   fun hne => componentDef_setType_type d v hne⟩

/-- Witness for C10: on the two-component definition with distinct types
IC and Resistor, `type` reads "mixed", and after setting type to
Capacitor it reads Capacitor. -/
theorem componentDef_type_property_witness :
    (compDefMixed.comps.map EDBComponent.refdes).Nodup ∧
    compDefMixed.type = some "mixed" ∧
    (compDefMixed.setType "Capacitor").type = some "Capacitor" := by
  have h := componentDef_type_property compDefMixed "IC" "Capacitor"
    (by simp [compDefMixed])
  refine ⟨by simp [compDefMixed], ?_, ?_⟩
  · exact h.2.2.1 ⟨"U1", "IC", Option.none⟩ (by simp [compDefMixed])
      ⟨"U2", "Resistor", Option.none⟩ (by simp [compDefMixed]) (by simp)
  · exact h.2.2.2 (by simp [compDefMixed])
